import Mathlib

/-
Shallow embedding of
src/Interfaces/python/mixtures/BayesBoom/mixtures/beta_binomial_mixture.py
(class BetaBinomialMixture).

Modelling conventions:
- numpy float64 entries are idealised as rationals; the properties proved
  below concern shapes, list lengths and control flow, never rounding.
- np.empty produces uninitialised storage; it is modelled by an arbitrary
  entry function (a junk parameter threaded in from the caller), never by a
  fixed value.
- The external engine (module boom: BetaBinomialMixtureModel and friends) is
  not part of the repository fragment.  It is modelled abstractly: the engine
  state records what the wrapper handed to it (component priors, Dirichlet
  prior counts, data rows, number of sample_posterior calls) and an Oracle
  supplies the values the wrapper reads back (component a, component b,
  mixing probs).  R.report_progress only prints, the seed only touches the
  global RNG of the engine; both are side effects outside the state and are
  dropped.
- Python exceptions are modelled with Except / an error component.  When a
  method mutates attributes before raising, the returned state carries those
  mutations, matching Python semantics.
-/

namespace BetaBinomialMixtureSpec

/-- Python exception kinds that the code under consideration can raise. -/
inductive PyError
  | typeError
  | attributeError
  | indexError
  deriving DecidableEq

/-- A numpy 2-d float array: shape plus an entry function (rationals stand in
for float64; entries outside the shape are meaningless). -/
structure NpMatrix where
  rows : Nat
  cols : Nat
  entry : Nat → Nat → ℚ

/-- Write a single cell of a matrix, in place. -/
def NpMatrix.setCell (m : NpMatrix) (r c : Nat) (v : ℚ) : NpMatrix :=
  { m with entry := fun rr cc => if rr = r && cc = c then v else m.entry rr cc }

/-- Elementwise numpy addition of same-shape arrays. -/
def NpMatrix.add (x y : NpMatrix) : NpMatrix :=
  ⟨x.rows, x.cols, fun r c => x.entry r c + y.entry r c⟩

/-- Elementwise numpy division of same-shape arrays. -/
def NpMatrix.div (x y : NpMatrix) : NpMatrix :=
  ⟨x.rows, x.cols, fun r c => x.entry r c / y.entry r c⟩

/-- The data argument of add_data after data.astype(int): a rectangular
integer table of shape rows x cols. -/
structure DataMatrix where
  rows : Nat
  cols : Nat
  entry : Nat → Nat → Int

/-- One element of self._components: the dict built by add_component.  The
prior objects (R.BetaPrior, R.DoubleModel) are opaque to this file and are
modelled by handles.  The draws key is absent (none) until _create_storage
inserts it. -/
structure Component where
  mean_prior : Nat
  sample_size_prior : Nat
  draws : Option NpMatrix

/-- Abstract state of the external boom model, recording exactly what the
wrapper passed into the engine. -/
structure BoomModel where
  numComponents : Nat
  priorCounts : List ℚ
  componentPriors : List (Nat × Nat)
  data : List (Int × Int × Int)
  nSteps : Nat

/-- One engine MCMC sweep; only its occurrence is observable from here. -/
def BoomModel.sample_posterior (m : BoomModel) : BoomModel :=
  { m with nSteps := m.nSteps + 1 }

/-- Values the wrapper reads back from the engine, plus the uninitialised
contents of np.empty allocations.  All are arbitrary. -/
structure Oracle where
  compA : BoomModel → Nat → ℚ
  compB : BoomModel → Nat → ℚ
  mixProb : BoomModel → Nat → ℚ
  junk : Nat → Nat → ℚ

/-- The Python object state.  _mixing_weights is doubly optional: the outer
none means the attribute has never been assigned (reading it raises
AttributeError), some none is the Python value None, some (some w) is an
allocated array. -/
structure BetaBinomialMixture where
  components : List Component
  mixing_distribution_prior_counts : List ℚ
  boom_model : Option BoomModel
  mixing_weights : Option (Option NpMatrix)

namespace BetaBinomialMixture

/-- __init__: sets _components, _mixing_distribution_prior_counts and
_boom_model only; _mixing_weights is NOT assigned. -/
def init : BetaBinomialMixture := ⟨[], [], none, none⟩

/-- add_component(mean_prior, sample_size_prior, prior_count=1.0). -/
def add_component (s : BetaBinomialMixture)
    (mp ssp : Nat) (prior_count : ℚ) : BetaBinomialMixture :=
  { s with
    mixing_distribution_prior_counts :=
      s.mixing_distribution_prior_counts ++ [prior_count]
    mixing_weights := some none
    components := s.components ++ [⟨mp, ssp, none⟩] }

/-- property number_of_mixture_components:
len(self._mixing_distribution_prior_counts). -/
def number_of_mixture_components (s : BetaBinomialMixture) : Nat :=
  s.mixing_distribution_prior_counts.length

/-- _build_boom_model: constructs the engine-side mixture model from the
accumulated component specs and prior counts, with no data. -/
def build_boom_model (s : BetaBinomialMixture) : BoomModel :=
  { numComponents := s.mixing_distribution_prior_counts.length
    priorCounts := s.mixing_distribution_prior_counts
    componentPriors := s.components.map (fun c => (c.mean_prior, c.sample_size_prior))
    data := []
    nSteps := 0 }

/-- add_data(data).  Builds the boom model on first use, then forwards the
first three columns.  data[:, j] raises IndexError when the table has at
most j columns; the model construction that happened before the raise is
kept, matching Python.  No validation of entry values takes place. -/
def add_data (s : BetaBinomialMixture) (d : DataMatrix) :
    BetaBinomialMixture × Option PyError :=
  let m := match s.boom_model with
    | some m => m
    | none => s.build_boom_model
  if d.cols < 3 then
    ({ s with boom_model := some m }, some PyError.indexError)
  else
    let newRows := (List.range d.rows).map
      (fun r => (d.entry r 0, d.entry r 1, d.entry r 2))
    ({ s with boom_model := some { m with data := m.data ++ newRows } }, none)

/-- property niter: 0 when _mixing_weights is None, otherwise its row count;
AttributeError when the attribute was never assigned. -/
def niter (s : BetaBinomialMixture) : Except PyError Nat :=
  match s.mixing_weights with
  | none => Except.error PyError.attributeError
  | some none => Except.ok 0
  | some (some w) => Except.ok w.rows

/-- property a.  ans = np.empty((niter, k)); then
for i in range(k): ans[:, i] = self._components[\x22draws\x22][:, 0].
Indexing the list self._components with a string raises TypeError on the
first loop iteration, so the loop body only completes when k = 0. -/
def a (s : BetaBinomialMixture) (junk : Nat → Nat → ℚ) :
    Except PyError NpMatrix := do
  let n ← s.niter
  let k := s.number_of_mixture_components
  let ans : NpMatrix := ⟨n, k, junk⟩
  if k = 0 then pure ans else Except.error PyError.typeError

/-- property b: identical control flow to property a. -/
def b (s : BetaBinomialMixture) (junk : Nat → Nat → ℚ) :
    Except PyError NpMatrix := do
  let n ← s.niter
  let k := s.number_of_mixture_components
  let ans : NpMatrix := ⟨n, k, junk⟩
  if k = 0 then pure ans else Except.error PyError.typeError

/-- property means: a / (a + b), evaluating self.a then self.b. -/
def means (s : BetaBinomialMixture) (junkA junkB : Nat → Nat → ℚ) :
    Except PyError NpMatrix := do
  let x ← s.a junkA
  let y ← s.b junkB
  pure (x.div (x.add y))

/-- property sample_sizes: self.a + self.b. -/
def sample_sizes (s : BetaBinomialMixture) (junkA junkB : Nat → Nat → ℚ) :
    Except PyError NpMatrix := do
  let x ← s.a junkA
  let y ← s.b junkB
  pure (x.add y)

/-- property mixing_weights: returns the raw attribute (None or the array);
AttributeError when it was never assigned. -/
def mixing_weights_prop (s : BetaBinomialMixture) :
    Except PyError (Option NpMatrix) :=
  match s.mixing_weights with
  | none => Except.error PyError.attributeError
  | some w => Except.ok w

/-- _create_storage(niter): gives every component dict a fresh
np.empty((niter, 2)) under the draws key and allocates
np.empty((niter, k)) for _mixing_weights. -/
def create_storage (s : BetaBinomialMixture) (niter : Nat)
    (junk : Nat → Nat → ℚ) : BetaBinomialMixture :=
  { s with
    components := s.components.map (fun c => { c with draws := some ⟨niter, 2, junk⟩ })
    mixing_weights := some (some ⟨niter, s.number_of_mixture_components, junk⟩) }

/-- The loop body of _record_draw over enumerate(self._components): writes
row i of each draws table from the engine accessors.  A component whose
draws key is missing is never reached from mcmc, which always allocates
storage first. -/
def recordComponents (o : Oracle) (m : BoomModel) (i : Nat) :
    Nat → List Component → List Component
  | _, [] => []
  | c, comp :: rest =>
    { comp with
      draws := comp.draws.map
        (fun d => (d.setCell i 0 (o.compA m c)).setCell i 1 (o.compB m c)) }
      :: recordComponents o m i (c + 1) rest

/-- _record_draw(i): fills row i of every component draws table and row i of
_mixing_weights from the current engine state. -/
def record_draw (s : BetaBinomialMixture) (o : Oracle) (i : Nat) :
    BetaBinomialMixture :=
  match s.boom_model with
  | none => s
  | some m =>
    { s with
      components := recordComponents o m i 0 s.components
      mixing_weights :=
        match s.mixing_weights with
        | some (some w) =>
          some (some { w with
            entry := fun r c => if r = i then o.mixProb m c else w.entry r c })
        | x => x }

/-- One iteration of the mcmc loop body:
self._boom_model.sample_posterior(); self._record_draw(i). -/
def mcmcStep (o : Oracle) (s : BetaBinomialMixture) (i : Nat) :
    BetaBinomialMixture :=
  let s1 := { s with boom_model := s.boom_model.map BoomModel.sample_posterior }
  s1.record_draw o i

/-- for i in range(niter): run the remaining n iterations starting at index i. -/
def mcmcLoop (o : Oracle) : Nat → Nat → BetaBinomialMixture → BetaBinomialMixture
  | 0, _, s => s
  | n + 1, i, s => mcmcLoop o n (i + 1) (mcmcStep o s i)

/-- mcmc(niter, ping=None, seed=None).  Lazily builds the engine model (with
a warning, returned as the Bool), allocates storage, runs the loop.  ping
only prints and seed only reseeds the engine global RNG; neither touches
the state modelled here. -/
def mcmc (s : BetaBinomialMixture) (o : Oracle) (niter : Nat) :
    BetaBinomialMixture × Bool :=
  let built :=
    match s.boom_model with
    | none => ({ s with boom_model := some s.build_boom_model }, true)
    | some _ => (s, false)
  let s1 := built.1.create_storage niter o.junk
  (mcmcLoop o niter 0 s1, built.2)

end BetaBinomialMixture

open BetaBinomialMixture

/-- The public operations of the class, for quantifying over call sequences. -/
inductive Op
  | addComponent (mp ssp : Nat) (pc : ℚ)
  | addData (d : DataMatrix)
  | runMcmc (niter : Nat)

/-- Apply one public operation; for add_data the raised exception (if any) is
discarded and the mutated state kept, as for a caller that catches it. -/
def applyOp (o : Oracle) (s : BetaBinomialMixture) : Op → BetaBinomialMixture
  | Op.addComponent mp ssp pc => s.add_component mp ssp pc
  | Op.addData d => (s.add_data d).1
  | Op.runMcmc n => (s.mcmc o n).1

/-- The state reached from a freshly constructed object by a call sequence. -/
def reach (o : Oracle) (ops : List Op) : BetaBinomialMixture :=
  ops.foldl (applyOp o) BetaBinomialMixture.init

/-- Call add_component once per element of args, in order. -/
def addComponents (args : List (Nat × Nat × ℚ)) (s : BetaBinomialMixture) :
    BetaBinomialMixture :=
  args.foldl (fun t p => t.add_component p.1 p.2.1 p.2.2) s

/-- A concrete oracle for closed evaluations: every engine read and every
uninitialised cell is 0. -/
def trivOracle : Oracle :=
  ⟨fun _ _ => 0, fun _ _ => 0, fun _ _ => 0, fun _ _ => 0⟩

/-- A concrete junk function for closed evaluations of np.empty contents. -/
def zfun : Nat → Nat → ℚ := fun _ _ => 0

/-- Shape of the draws table of a component, when the key is present. -/
def drawsShape (c : Component) : Option (Nat × Nat) :=
  c.draws.map (fun d => (d.rows, d.cols))

/-- Shapes of the per-component draws tables of a state. -/
def drawShapes (s : BetaBinomialMixture) : List (Option (Nat × Nat)) :=
  s.components.map drawsShape

/-- Shape of the mixing-weights table, through both attribute layers. -/
def mixShape (s : BetaBinomialMixture) : Option (Option (Nat × Nat)) :=
  s.mixing_weights.map (Option.map (fun w => (w.rows, w.cols)))

/-- Column counts of the per-component draws tables. -/
def componentTableCols (s : BetaBinomialMixture) : List (Option Nat) :=
  s.components.map (fun c => c.draws.map (fun d => d.cols))

/-- Column count of the mixing-weights table, through both attribute layers. -/
def mixTableCols (s : BetaBinomialMixture) : Option (Option Nat) :=
  s.mixing_weights.map (Option.map (fun w => w.cols))

/-- The prior handles of every component, in list order. -/
def priorsOf (s : BetaBinomialMixture) : List (Nat × Nat) :=
  s.components.map (fun c => (c.mean_prior, c.sample_size_prior))

/-- The data rows currently held by the engine (empty when no model yet). -/
def currentData (s : BetaBinomialMixture) : List (Int × Int × Int) :=
  match s.boom_model with
  | some m => m.data
  | none => []

/-- A one-row data table (10, -4, 28) whose successes entry is negative. -/
def negData : DataMatrix :=
  ⟨1, 3, fun r c =>
    if r = 0 && c = 0 then 10
    else if r = 0 && c = 1 then -4
    else if r = 0 && c = 2 then 28
    else 0⟩

/-- A fresh object with three components added. -/
def threeComp : BetaBinomialMixture :=
  ((BetaBinomialMixture.init.add_component 1 2 1).add_component 3 4 1).add_component 5 6 1

/-- A fresh object with one component added. -/
def oneComp : BetaBinomialMixture :=
  BetaBinomialMixture.init.add_component 5 7 1

/-- Writing single cells leaves the shape of a numpy array unchanged. -/
theorem setCell_shape (d : NpMatrix) (r c : Nat) (v : ℚ) :
    (d.setCell r c v).rows = d.rows ∧ (d.setCell r c v).cols = d.cols :=
  ⟨rfl, rfl⟩

/-- The _record_draw component loop preserves every draws-table shape. -/
theorem recordComponents_map_drawsShape (o : Oracle) (m : BoomModel) (i : Nat) :
    ∀ (c0 : Nat) (l : List Component),
      (recordComponents o m i c0 l).map drawsShape = l.map drawsShape := by
  intro c0 l
  induction l generalizing c0 with
  | nil => rfl
  | cons x xs ih =>
    simp only [recordComponents, List.map_cons, ih]
    cases hx : x.draws <;> simp [drawsShape, NpMatrix.setCell, hx]

/-- The _record_draw component loop preserves every prior handle. -/
theorem recordComponents_map_priors (o : Oracle) (m : BoomModel) (i : Nat) :
    ∀ (c0 : Nat) (l : List Component),
      (recordComponents o m i c0 l).map (fun c => (c.mean_prior, c.sample_size_prior)) =
        l.map (fun c => (c.mean_prior, c.sample_size_prior)) := by
  intro c0 l
  induction l generalizing c0 with
  | nil => rfl
  | cons x xs ih => simp only [recordComponents, List.map_cons, ih]

/-- _record_draw leaves the engine model untouched. -/
theorem record_draw_boom (s : BetaBinomialMixture) (o : Oracle) (i : Nat) :
    (s.record_draw o i).boom_model = s.boom_model := by
  cases h : s.boom_model <;> simp [BetaBinomialMixture.record_draw, h]

/-- _record_draw leaves the prior-count list untouched. -/
theorem record_draw_counts (s : BetaBinomialMixture) (o : Oracle) (i : Nat) :
    (s.record_draw o i).mixing_distribution_prior_counts =
      s.mixing_distribution_prior_counts := by
  cases h : s.boom_model <;> simp [BetaBinomialMixture.record_draw, h]

/-- _record_draw preserves the draws-table shapes. -/
theorem record_draw_drawShapes (s : BetaBinomialMixture) (o : Oracle) (i : Nat) :
    drawShapes (s.record_draw o i) = drawShapes s := by
  cases h : s.boom_model with
  | none => simp [BetaBinomialMixture.record_draw, h]
  | some m =>
    simp only [BetaBinomialMixture.record_draw, h, drawShapes]
    exact recordComponents_map_drawsShape o m i 0 s.components

/-- _record_draw preserves the prior handles of every component. -/
theorem record_draw_priorsOf (s : BetaBinomialMixture) (o : Oracle) (i : Nat) :
    priorsOf (s.record_draw o i) = priorsOf s := by
  cases h : s.boom_model with
  | none => simp [BetaBinomialMixture.record_draw, h]
  | some m =>
    simp only [BetaBinomialMixture.record_draw, h, priorsOf]
    exact recordComponents_map_priors o m i 0 s.components

/-- _record_draw preserves the shape of the mixing-weights table. -/
theorem record_draw_mixShape (s : BetaBinomialMixture) (o : Oracle) (i : Nat) :
    mixShape (s.record_draw o i) = mixShape s := by
  cases h : s.boom_model with
  | none => simp [BetaBinomialMixture.record_draw, h]
  | some m =>
    cases hw : s.mixing_weights with
    | none => simp [BetaBinomialMixture.record_draw, h, mixShape, hw]
    | some ow =>
      cases ow <;> simp [BetaBinomialMixture.record_draw, h, mixShape, hw]

/-- One mcmc loop iteration preserves the draws-table shapes. -/
theorem mcmcStep_drawShapes (o : Oracle) (s : BetaBinomialMixture) (i : Nat) :
    drawShapes (mcmcStep o s i) = drawShapes s := by
  unfold mcmcStep
  rw [record_draw_drawShapes]
  rfl

/-- One mcmc loop iteration preserves the mixing-weights shape. -/
theorem mcmcStep_mixShape (o : Oracle) (s : BetaBinomialMixture) (i : Nat) :
    mixShape (mcmcStep o s i) = mixShape s := by
  unfold mcmcStep
  rw [record_draw_mixShape]
  rfl

/-- One mcmc loop iteration preserves the prior-count list. -/
theorem mcmcStep_counts (o : Oracle) (s : BetaBinomialMixture) (i : Nat) :
    (mcmcStep o s i).mixing_distribution_prior_counts =
      s.mixing_distribution_prior_counts := by
  unfold mcmcStep
  rw [record_draw_counts]

/-- One mcmc loop iteration preserves the prior handles. -/
theorem mcmcStep_priorsOf (o : Oracle) (s : BetaBinomialMixture) (i : Nat) :
    priorsOf (mcmcStep o s i) = priorsOf s := by
  unfold mcmcStep
  rw [record_draw_priorsOf]
  rfl

/-- One mcmc loop iteration advances the engine by one posterior sweep. -/
theorem mcmcStep_boom (o : Oracle) (s : BetaBinomialMixture) (i : Nat) :
    (mcmcStep o s i).boom_model = s.boom_model.map BoomModel.sample_posterior := by
  unfold mcmcStep
  rw [record_draw_boom]

/-- The whole mcmc loop preserves the draws-table shapes. -/
theorem mcmcLoop_drawShapes (o : Oracle) :
    ∀ (n i : Nat) (s : BetaBinomialMixture),
      drawShapes (mcmcLoop o n i s) = drawShapes s := by
  intro n
  induction n with
  | zero => intro i s; rfl
  | succ k ih =>
    intro i s
    simp only [mcmcLoop]
    rw [ih, mcmcStep_drawShapes]

/-- The whole mcmc loop preserves the mixing-weights shape. -/
theorem mcmcLoop_mixShape (o : Oracle) :
    ∀ (n i : Nat) (s : BetaBinomialMixture),
      mixShape (mcmcLoop o n i s) = mixShape s := by
  intro n
  induction n with
  | zero => intro i s; rfl
  | succ k ih =>
    intro i s
    simp only [mcmcLoop]
    rw [ih, mcmcStep_mixShape]

/-- The whole mcmc loop preserves the prior-count list. -/
theorem mcmcLoop_counts (o : Oracle) :
    ∀ (n i : Nat) (s : BetaBinomialMixture),
      (mcmcLoop o n i s).mixing_distribution_prior_counts =
        s.mixing_distribution_prior_counts := by
  intro n
  induction n with
  | zero => intro i s; rfl
  | succ k ih =>
    intro i s
    simp only [mcmcLoop]
    rw [ih, mcmcStep_counts]

/-- The whole mcmc loop preserves the prior handles. -/
theorem mcmcLoop_priorsOf (o : Oracle) :
    ∀ (n i : Nat) (s : BetaBinomialMixture),
      priorsOf (mcmcLoop o n i s) = priorsOf s := by
  intro n
  induction n with
  | zero => intro i s; rfl
  | succ k ih =>
    intro i s
    simp only [mcmcLoop]
    rw [ih, mcmcStep_priorsOf]

/-- The mcmc loop leaves the engine data unchanged. -/
theorem mcmcLoop_boom_data (o : Oracle) :
    ∀ (n i : Nat) (s : BetaBinomialMixture),
      (mcmcLoop o n i s).boom_model.map (fun m => m.data) =
        s.boom_model.map (fun m => m.data) := by
  intro n
  induction n with
  | zero => intro i s; rfl
  | succ k ih =>
    intro i s
    simp only [mcmcLoop]
    rw [ih, mcmcStep_boom]
    cases s.boom_model <;> simp [BoomModel.sample_posterior]

/-- The mcmc loop runs exactly one engine sweep per iteration. -/
theorem mcmcLoop_boom_nSteps (o : Oracle) :
    ∀ (n i : Nat) (s : BetaBinomialMixture),
      (mcmcLoop o n i s).boom_model.map (fun m => m.nSteps) =
        s.boom_model.map (fun m => m.nSteps + n) := by
  intro n
  induction n with
  | zero => intro i s; simp [mcmcLoop]
  | succ k ih =>
    intro i s
    simp only [mcmcLoop]
    rw [ih, mcmcStep_boom]
    cases s.boom_model with
    | none => rfl
    | some m =>
      show some ((BoomModel.sample_posterior m).nSteps + k) = some (m.nSteps + (k + 1))
      exact congrArg some (by simp only [BoomModel.sample_posterior]; omega)

/-- _create_storage resizes every component draws table to niter x 2. -/
theorem create_storage_drawShapes (s : BetaBinomialMixture) (n : Nat)
    (junk : Nat → Nat → ℚ) :
    drawShapes (s.create_storage n junk) =
      List.replicate s.components.length (some (n, 2)) := by
  unfold BetaBinomialMixture.create_storage drawShapes
  induction s.components with
  | nil => rfl
  | cons x xs ih => simp [drawsShape, List.replicate, ih]

/-- _create_storage allocates a niter x k mixing-weights table. -/
theorem create_storage_mixShape (s : BetaBinomialMixture) (n : Nat)
    (junk : Nat → Nat → ℚ) :
    mixShape (s.create_storage n junk) =
      some (some (n, s.number_of_mixture_components)) := rfl

/-- _create_storage leaves the prior-count list unchanged. -/
theorem create_storage_counts (s : BetaBinomialMixture) (n : Nat)
    (junk : Nat → Nat → ℚ) :
    (s.create_storage n junk).mixing_distribution_prior_counts =
      s.mixing_distribution_prior_counts := rfl

/-- _create_storage leaves the prior handles unchanged. -/
theorem create_storage_priorsOf (s : BetaBinomialMixture) (n : Nat)
    (junk : Nat → Nat → ℚ) :
    priorsOf (s.create_storage n junk) = priorsOf s := by
  unfold BetaBinomialMixture.create_storage priorsOf
  simp [List.map_map]

/-- _create_storage leaves the engine model unchanged. -/
theorem create_storage_boom (s : BetaBinomialMixture) (n : Nat)
    (junk : Nat → Nat → ℚ) :
    (s.create_storage n junk).boom_model = s.boom_model := rfl

/-- After mcmc(niter=n) every component draws table is n x 2. -/
theorem mcmc_drawShapes (o : Oracle) (s : BetaBinomialMixture) (n : Nat) :
    drawShapes (s.mcmc o n).1 = List.replicate s.components.length (some (n, 2)) := by
  cases h : s.boom_model <;>
    simp [BetaBinomialMixture.mcmc, h, mcmcLoop_drawShapes, create_storage_drawShapes]

/-- After mcmc(niter=n) the mixing-weights table is n x k. -/
theorem mcmc_mixShape (o : Oracle) (s : BetaBinomialMixture) (n : Nat) :
    mixShape (s.mcmc o n).1 =
      some (some (n, s.number_of_mixture_components)) := by
  cases h : s.boom_model <;>
    simp [BetaBinomialMixture.mcmc, h, mcmcLoop_mixShape, create_storage_mixShape,
      BetaBinomialMixture.number_of_mixture_components]

/-- mcmc leaves the prior-count list unchanged. -/
theorem mcmc_counts (o : Oracle) (s : BetaBinomialMixture) (n : Nat) :
    (s.mcmc o n).1.mixing_distribution_prior_counts =
      s.mixing_distribution_prior_counts := by
  cases h : s.boom_model <;>
    simp [BetaBinomialMixture.mcmc, h, mcmcLoop_counts, create_storage_counts]

/-- mcmc leaves the component count unchanged. -/
theorem mcmc_ncomp (o : Oracle) (s : BetaBinomialMixture) (n : Nat) :
    (s.mcmc o n).1.number_of_mixture_components =
      s.number_of_mixture_components := by
  unfold BetaBinomialMixture.number_of_mixture_components
  rw [mcmc_counts]

/-- mcmc leaves the prior handles of every component unchanged. -/
theorem mcmc_priorsOf (o : Oracle) (s : BetaBinomialMixture) (n : Nat) :
    priorsOf (s.mcmc o n).1 = priorsOf s := by
  cases h : s.boom_model <;>
  · simp only [BetaBinomialMixture.mcmc, h]
    rw [mcmcLoop_priorsOf, create_storage_priorsOf]
    try simp [priorsOf]

/-- mcmc leaves the component list length unchanged. -/
theorem mcmc_components_length (o : Oracle) (s : BetaBinomialMixture) (n : Nat) :
    (s.mcmc o n).1.components.length = s.components.length := by
  have h := congrArg List.length (mcmc_drawShapes o s n)
  simpa [drawShapes] using h

/-- A state whose mixing-weights table is allocated with n rows reports
niter = n. -/
theorem niter_of_mixShape {s : BetaBinomialMixture} {n k : Nat}
    (h : mixShape s = some (some (n, k))) : s.niter = Except.ok n := by
  cases hw : s.mixing_weights with
  | none => simp only [mixShape, hw] at h; simp at h
  | some ow =>
    cases ow with
    | none => simp only [mixShape, hw] at h; simp at h
    | some w =>
      simp only [mixShape, hw] at h
      simp at h
      simp [BetaBinomialMixture.niter, hw, h.1]

/-- After mcmc(niter=n), the niter property reports n. -/
theorem mcmc_niter (o : Oracle) (s : BetaBinomialMixture) (n : Nat) :
    (s.mcmc o n).1.niter = Except.ok n :=
  niter_of_mixShape (mcmc_mixShape o s n)

/-- Reading property a on any state whose _mixing_weights attribute exists
and which holds at least one component raises TypeError: the loop body
indexes the components list with a string. -/
theorem a_typeError {s : BetaBinomialMixture} (junk : Nat → Nat → ℚ)
    (h1 : s.mixing_weights ≠ none) (h2 : s.number_of_mixture_components ≠ 0) :
    s.a junk = Except.error PyError.typeError := by
  cases hw : s.mixing_weights with
  | none => exact absurd hw h1
  | some ow =>
    cases ow <;>
      simp [BetaBinomialMixture.a, BetaBinomialMixture.niter, hw, h2,
        Bind.bind, Except.bind]

/-- Property b raises TypeError under the same conditions as property a. -/
theorem b_typeError {s : BetaBinomialMixture} (junk : Nat → Nat → ℚ)
    (h1 : s.mixing_weights ≠ none) (h2 : s.number_of_mixture_components ≠ 0) :
    s.b junk = Except.error PyError.typeError := by
  cases hw : s.mixing_weights with
  | none => exact absurd hw h1
  | some ow =>
    cases ow <;>
      simp [BetaBinomialMixture.b, BetaBinomialMixture.niter, hw, h2,
        Bind.bind, Except.bind]

/-- Property means propagates the TypeError from property a. -/
theorem means_typeError {s : BetaBinomialMixture} (j1 j2 : Nat → Nat → ℚ)
    (h1 : s.mixing_weights ≠ none) (h2 : s.number_of_mixture_components ≠ 0) :
    s.means j1 j2 = Except.error PyError.typeError := by
  unfold BetaBinomialMixture.means
  rw [a_typeError j1 h1 h2]
  rfl

/-- Property sample_sizes propagates the TypeError from property a. -/
theorem sample_sizes_typeError {s : BetaBinomialMixture} (j1 j2 : Nat → Nat → ℚ)
    (h1 : s.mixing_weights ≠ none) (h2 : s.number_of_mixture_components ≠ 0) :
    s.sample_sizes j1 j2 = Except.error PyError.typeError := by
  unfold BetaBinomialMixture.sample_sizes
  rw [a_typeError j1 h1 h2]
  rfl

/-- add_data never changes the component list. -/
theorem add_data_components (s : BetaBinomialMixture) (d : DataMatrix) :
    (s.add_data d).1.components = s.components := by
  unfold BetaBinomialMixture.add_data
  by_cases h : d.cols < 3 <;> simp [h]

/-- add_data never changes the prior-count list. -/
theorem add_data_counts (s : BetaBinomialMixture) (d : DataMatrix) :
    (s.add_data d).1.mixing_distribution_prior_counts =
      s.mixing_distribution_prior_counts := by
  unfold BetaBinomialMixture.add_data
  by_cases h : d.cols < 3 <;> simp [h]

/-- add_data never changes the _mixing_weights attribute. -/
theorem add_data_mixing_weights (s : BetaBinomialMixture) (d : DataMatrix) :
    (s.add_data d).1.mixing_weights = s.mixing_weights := by
  unfold BetaBinomialMixture.add_data
  by_cases h : d.cols < 3 <;> simp [h]

/-- The raised/returned error of add_data depends only on the column count. -/
theorem add_data_snd (s : BetaBinomialMixture) (d : DataMatrix) :
    (s.add_data d).2 =
      if d.cols < 3 then some PyError.indexError else none := by
  unfold BetaBinomialMixture.add_data
  by_cases h : d.cols < 3 <;> simp [h]

/-- The data held by the engine after add_data: unchanged on the IndexError
path, extended by the first three columns of every row otherwise. -/
theorem add_data_currentData (s : BetaBinomialMixture) (d : DataMatrix) :
    currentData (s.add_data d).1 =
      currentData s ++
        (if d.cols < 3 then []
         else (List.range d.rows).map
           (fun r => (d.entry r 0, d.entry r 1, d.entry r 2))) := by
  unfold BetaBinomialMixture.add_data
  cases hb : s.boom_model <;> by_cases h : d.cols < 3 <;>
    simp [h, hb, currentData, BetaBinomialMixture.build_boom_model]

/-- Any property preserved by every public operation holds in every state
reachable from a fresh object. -/
theorem foldl_preserve (o : Oracle) (P : BetaBinomialMixture → Prop)
    (hstep : ∀ s op, P s → P (applyOp o s op)) :
    ∀ (ops : List Op) (s : BetaBinomialMixture),
      P s → P (ops.foldl (applyOp o) s) := by
  intro ops
  induction ops with
  | nil => intro s h; exact h
  | cons op rest ih => intro s h; exact ih _ (hstep s op h)

/-- In every reachable state, either the _mixing_weights attribute exists or
no component has been added yet. -/
theorem reach_weights_or_zero (o : Oracle) (ops : List Op) :
    (reach o ops).mixing_weights ≠ none ∨
      (reach o ops).number_of_mixture_components = 0 := by
  refine foldl_preserve o
    (fun s => s.mixing_weights ≠ none ∨ s.number_of_mixture_components = 0)
    ?_ ops BetaBinomialMixture.init (Or.inr rfl)
  intro s op h
  cases op with
  | addComponent mp ssp pc =>
    left
    simp [applyOp, BetaBinomialMixture.add_component]
  | addData d =>
    rcases h with h | h
    · left
      simpa only [applyOp, add_data_mixing_weights] using h
    · right
      simp only [applyOp, BetaBinomialMixture.number_of_mixture_components,
        add_data_counts]
      exact h
  | runMcmc n =>
    left
    have hm := mcmc_mixShape o s n
    intro hc
    simp only [applyOp] at hc
    simp only [mixShape, hc] at hm
    simp at hm

/-- The components appended by add_component carry no draws table. -/
theorem add_component_componentTableCols (s : BetaBinomialMixture)
    (mp ssp : Nat) (pc : ℚ) :
    componentTableCols (s.add_component mp ssp pc) =
      componentTableCols s ++ [none] := by
  unfold componentTableCols BetaBinomialMixture.add_component
  simp

/-- add_data changes no draws table. -/
theorem add_data_componentTableCols (s : BetaBinomialMixture) (d : DataMatrix) :
    componentTableCols (s.add_data d).1 = componentTableCols s := by
  unfold componentTableCols
  rw [add_data_components]

/-- add_data does not touch the mixing-weights table. -/
theorem add_data_mixTableCols (s : BetaBinomialMixture) (d : DataMatrix) :
    mixTableCols (s.add_data d).1 = mixTableCols s := by
  unfold mixTableCols
  rw [add_data_mixing_weights]

/-- The column counts of the draws tables are the second shape components. -/
theorem componentTableCols_eq (s : BetaBinomialMixture) :
    componentTableCols s = (drawShapes s).map (Option.map Prod.snd) := by
  unfold componentTableCols drawShapes
  induction s.components with
  | nil => rfl
  | cons c cs ih =>
    simp only [List.map_cons, ih]
    cases hx : c.draws <;> simp [drawsShape, hx]

/-- The column count of the mixing-weights table is its second shape
component. -/
theorem mixTableCols_eq (s : BetaBinomialMixture) :
    mixTableCols s = (mixShape s).map (Option.map Prod.snd) := by
  unfold mixTableCols mixShape
  cases hw : s.mixing_weights with
  | none => rfl
  | some ow => cases ow <;> rfl

/-- Calling add_component args.length times adds that many prior counts. -/
theorem addComponents_count :
    ∀ (args : List (Nat × Nat × ℚ)) (s : BetaBinomialMixture),
      (addComponents args s).number_of_mixture_components =
        s.number_of_mixture_components + args.length := by
  intro args
  induction args with
  | nil => intro s; rfl
  | cons p rest ih =>
    intro s
    show (addComponents rest (s.add_component p.1 p.2.1 p.2.2)).number_of_mixture_components = _
    rw [ih]
    simp [BetaBinomialMixture.add_component,
      BetaBinomialMixture.number_of_mixture_components]
    omega

/-- C1: the spec asserts means = a / (a + b) and sample_sizes = a + b
element-wise in every state with a recorded sampling run.  Evaluating the
code on a state with one component and one recorded mcmc iteration (niter
reports 1, so a run is recorded) shows that reading means or sample_sizes
raises TypeError instead of returning those matrices, because the
underlying a and b properties index the components list with a string. -/
theorem C1_means_raises_at_recorded_state :
    (oneComp.mcmc trivOracle 1).1.niter = Except.ok 1 ∧
    (oneComp.mcmc trivOracle 1).1.means zfun zfun =
      Except.error PyError.typeError ∧
    (oneComp.mcmc trivOracle 1).1.sample_sizes zfun zfun =
      Except.error PyError.typeError :=
  ⟨rfl, rfl, rfl⟩

/-- C2: on every object reachable by public calls on which add_component has
been called at least once (number_of_mixture_components is at least 1),
reading a, b, means or sample_sizes raises TypeError, because the loop body
indexes the components list with the string draws instead of an integer. -/
theorem C2_properties_raise_TypeError (o : Oracle) (ops : List Op)
    (j1 j2 : Nat → Nat → ℚ)
    (h : 1 ≤ (reach o ops).number_of_mixture_components) :
    (reach o ops).a j1 = Except.error PyError.typeError ∧
    (reach o ops).b j1 = Except.error PyError.typeError ∧
    (reach o ops).means j1 j2 = Except.error PyError.typeError ∧
    (reach o ops).sample_sizes j1 j2 = Except.error PyError.typeError := by
  have hz : (reach o ops).number_of_mixture_components ≠ 0 := by omega
  have hw : (reach o ops).mixing_weights ≠ none := by
    rcases reach_weights_or_zero o ops with h1 | h1
    · exact h1
    · exact absurd h1 hz
  exact ⟨a_typeError j1 hw hz, b_typeError j1 hw hz,
    means_typeError j1 j2 hw hz, sample_sizes_typeError j1 j2 hw hz⟩

/-- Witness for C2 at one add_component call on a fresh object. -/
theorem C2_witness :
    1 ≤ (reach trivOracle [Op.addComponent 0 0 1]).number_of_mixture_components ∧
    ((reach trivOracle [Op.addComponent 0 0 1]).a zfun =
        Except.error PyError.typeError ∧
     (reach trivOracle [Op.addComponent 0 0 1]).b zfun =
        Except.error PyError.typeError ∧
     (reach trivOracle [Op.addComponent 0 0 1]).means zfun zfun =
        Except.error PyError.typeError ∧
     (reach trivOracle [Op.addComponent 0 0 1]).sample_sizes zfun zfun =
        Except.error PyError.typeError) :=
  ⟨by decide,
   C2_properties_raise_TypeError trivOracle [Op.addComponent 0 0 1] zfun zfun
     (by decide)⟩

/-- C3: the spec asserts that after mcmc(niter=N) every draw matrix is
N x k and niter = N.  Evaluating the code after mcmc(niter=1) on a
one-component object: niter is 1 and the internal mixing-weights table is
1 x 1 as claimed, but reading the draw matrix b raises TypeError instead of
yielding a 1 x 1 matrix. -/
theorem C3_draw_matrix_shapes_after_mcmc :
    (oneComp.mcmc trivOracle 1).1.b zfun = Except.error PyError.typeError ∧
    mixShape (oneComp.mcmc trivOracle 1).1 = some (some (1, 1)) ∧
    (oneComp.mcmc trivOracle 1).1.number_of_mixture_components = 1 :=
  ⟨rfl, rfl, rfl⟩

/-- C4: the spec asserts that before any mcmc call niter = 0 and the
derived matrices are empty.  On a freshly constructed object the code
raises AttributeError from both niter and the mixing_weights property,
because __init__ never assigns the _mixing_weights attribute. -/
theorem C4_fresh_object_raises_AttributeError :
    BetaBinomialMixture.init.niter = Except.error PyError.attributeError ∧
    BetaBinomialMixture.init.mixing_weights_prop =
      Except.error PyError.attributeError :=
  ⟨rfl, rfl⟩

/-- C5: after add_component has been called exactly k times on a fresh
object, with any argument values, number_of_mixture_components is k. -/
theorem C5_component_count (args : List (Nat × Nat × ℚ)) :
    (addComponents args BetaBinomialMixture.init).number_of_mixture_components =
      args.length := by
  rw [addComponents_count]
  simp [BetaBinomialMixture.init, BetaBinomialMixture.number_of_mixture_components]

/-- C6: after mcmc(niter=n1) followed by mcmc(niter=n2) on the same object,
the draw storage holds exactly n2 rows, not n1 + n2: niter is n2, every
component draws table is n2 x 2, and the mixing-weights table is n2 x k.
Each mcmc call overwrites the storage. -/
theorem C6_second_mcmc_overwrites (o : Oracle) (s : BetaBinomialMixture)
    (n1 n2 : Nat) :
    (((s.mcmc o n1).1.mcmc o n2).1).niter = Except.ok n2 ∧
    drawShapes (((s.mcmc o n1).1.mcmc o n2).1) =
      List.replicate s.components.length (some (n2, 2)) ∧
    mixShape (((s.mcmc o n1).1.mcmc o n2).1) =
      some (some (n2, s.number_of_mixture_components)) := by
  refine ⟨mcmc_niter o _ n2, ?_, ?_⟩
  · rw [mcmc_drawShapes, mcmc_components_length]
  · rw [mcmc_mixShape, mcmc_ncomp]

/-- C7: calling mcmc on an object with no underlying model (no add_data has
happened) does not fail: it builds an engine model holding no data, emits
the warning (the Bool component), and still runs all n sampling sweeps. -/
theorem C7_mcmc_without_data (o : Oracle) (s : BetaBinomialMixture) (n : Nat)
    (h : s.boom_model = none) :
    (s.mcmc o n).2 = true ∧
    (s.mcmc o n).1.boom_model.map (fun m => m.data) = some [] ∧
    (s.mcmc o n).1.boom_model.map (fun m => m.nSteps) = some n := by
  refine ⟨?_, ?_, ?_⟩
  · simp [BetaBinomialMixture.mcmc, h]
  · simp [BetaBinomialMixture.mcmc, h, mcmcLoop_boom_data,
      BetaBinomialMixture.create_storage, BetaBinomialMixture.build_boom_model]
  · simp [BetaBinomialMixture.mcmc, h, mcmcLoop_boom_nSteps,
      BetaBinomialMixture.create_storage, BetaBinomialMixture.build_boom_model]

/-- Witness for C7 on a fresh object and two iterations. -/
theorem C7_witness :
    BetaBinomialMixture.init.boom_model = none ∧
    ((BetaBinomialMixture.init.mcmc trivOracle 2).2 = true ∧
     (BetaBinomialMixture.init.mcmc trivOracle 2).1.boom_model.map
        (fun m => m.data) = some [] ∧
     (BetaBinomialMixture.init.mcmc trivOracle 2).1.boom_model.map
        (fun m => m.nSteps) = some 2) :=
  ⟨rfl, C7_mcmc_without_data trivOracle BetaBinomialMixture.init 2 rfl⟩

/-- Counterexample to C8: a well-shaped table whose successes entry is the
negative number -4 passes through add_data with no error of any kind and
is forwarded to the engine unchanged. -/
theorem C8_counterexample :
    (BetaBinomialMixture.init.add_data negData).2 = none ∧
    currentData (BetaBinomialMixture.init.add_data negData).1 =
      [(10, -4, 28)] := by
  exact ⟨rfl, by decide⟩

/-- C8 amended: add_data validates nothing.  A table with fewer than three
columns raises IndexError at column extraction, after the lazy model build
but before any data reaches the engine; any table with three or more
columns, negative entries included, is forwarded (first three columns)
with no error. -/
theorem C8_amended_no_validation (s : BetaBinomialMixture) (d : DataMatrix) :
    (s.add_data d).2 =
      (if d.cols < 3 then some PyError.indexError else none) ∧
    currentData (s.add_data d).1 =
      currentData s ++
        (if d.cols < 3 then []
         else (List.range d.rows).map
           (fun r => (d.entry r 0, d.entry r 1, d.entry r 2))) :=
  ⟨add_data_snd s d, add_data_currentData s d⟩

/-- Counterexample to C9: with three components and storage allocated by
mcmc(niter=1), every per-component draws table has 2 columns, which is not
the common count 3, so not every allocated draw table has
number_of_mixture_components columns. -/
theorem C9_counterexample :
    (threeComp.mcmc trivOracle 1).1.number_of_mixture_components = 3 ∧
    componentTableCols (threeComp.mcmc trivOracle 1).1 =
      [some 2, some 2, some 2] ∧
    componentTableCols (threeComp.mcmc trivOracle 1).1 ≠
      List.replicate
        (threeComp.mcmc trivOracle 1).1.number_of_mixture_components
        (some (threeComp.mcmc trivOracle 1).1.number_of_mixture_components) :=
  ⟨by decide, by decide, by decide⟩

/-- C9 amended: every reachable state keeps the component list and the
prior-count list the same length; every allocated per-component draws table
has exactly 2 columns (the a and b parameters); and the mixing-weights
table, when allocated, has number_of_mixture_components columns. -/
theorem C9_amended_alignment_invariant (o : Oracle) (ops : List Op) :
    (reach o ops).components.length =
      (reach o ops).number_of_mixture_components ∧
    ((componentTableCols (reach o ops)).all fun oc => oc.getD 2 == 2) = true ∧
    (mixTableCols (reach o ops) = none ∨
     mixTableCols (reach o ops) = some none ∨
     mixTableCols (reach o ops) =
       some (some (reach o ops).number_of_mixture_components)) := by
  refine foldl_preserve o (fun s =>
    s.components.length = s.mixing_distribution_prior_counts.length ∧
    ((componentTableCols s).all fun oc => oc.getD 2 == 2) = true ∧
    (mixTableCols s = none ∨ mixTableCols s = some none ∨
     mixTableCols s = some (some s.mixing_distribution_prior_counts.length)))
    ?_ ops BetaBinomialMixture.init ?_
  · intro s op h
    obtain ⟨h1, h2, h3⟩ := h
    cases op with
    | addComponent mp ssp pc =>
      refine ⟨?_, ?_, Or.inr (Or.inl ?_)⟩
      · simp only [applyOp]
        simp [BetaBinomialMixture.add_component, h1]
      · simp only [applyOp]
        rw [add_component_componentTableCols, List.all_append]
        simp [h2]
      · simp only [applyOp]
        rfl
    | addData d =>
      refine ⟨?_, ?_, ?_⟩
      · simp only [applyOp]
        rw [add_data_components, add_data_counts]
        exact h1
      · simp only [applyOp]
        rw [add_data_componentTableCols]
        exact h2
      · simp only [applyOp]
        rw [add_data_mixTableCols, add_data_counts]
        exact h3
    | runMcmc n =>
      refine ⟨?_, ?_, Or.inr (Or.inr ?_)⟩
      · simp only [applyOp]
        rw [mcmc_components_length, mcmc_counts]
        exact h1
      · simp only [applyOp]
        rw [componentTableCols_eq, mcmc_drawShapes, List.map_replicate,
          List.all_eq_true]
        intro x hx
        rw [List.eq_of_mem_replicate hx]
        rfl
      · simp only [applyOp]
        rw [mixTableCols_eq, mcmc_mixShape, mcmc_counts]
        rfl
  · exact ⟨rfl, rfl, Or.inl rfl⟩

/-- Counterexample to C10: the component record stored by add_component has
no draws field, but after mcmc the same record (same index position) has
one: mcmc mutates the stored component record, so it is not immutable. -/
theorem C10_counterexample :
    oneComp.components.map (fun c => c.draws.isSome) = [false] ∧
    ((oneComp.mcmc trivOracle 1).1).components.map
      (fun c => c.draws.isSome) = [true] :=
  ⟨by decide, by decide⟩

/-- C10 amended: add_data and mcmc preserve every component record apart
from its draws entry: the mean_prior and sample_size_prior fields and the
index position of every component are unchanged (the list of prior-handle
pairs, in order, is identical); only the draws entry is added or
overwritten by mcmc storage allocation and recording. -/
theorem C10_amended_priors_and_order_preserved (o : Oracle)
    (s : BetaBinomialMixture) (d : DataMatrix) (n : Nat) :
    priorsOf (s.add_data d).1 = priorsOf s ∧
    priorsOf (s.mcmc o n).1 = priorsOf s := by
  constructor
  · unfold priorsOf
    rw [add_data_components]
  · exact mcmc_priorsOf o s n

end BetaBinomialMixtureSpec
